import Mathlib

/-!
Verification of the Titan Manufacturing embedding backfill pipeline
(`scripts/generate_embeddings.py`) against its specification.

The script is shallowly embedded: the database is a list of product rows,
the embedding provider and the persistence layer are oracles passed in as
functions, and the driver `main` is modelled as a pure function from a
configuration, a store state and the two oracles to a run report recording
everything observable about the run (exit code, counters, commit points,
progress reports, sleeps, provider calls, final store state).

Vector components are modelled as exact rationals: the script only ever
renders them with Python `str`, and every value relevant to the claims has
a finite decimal expansion, rendered by `ratToDecimal` below.
-/

namespace Titan

/-- A row of the `products` table, as selected by the script:
`sku, name, description, category, subcategory, division_id`, plus the
`is_active` flag and the nullable `embedding` column. -/
structure Product where
  sku : String
  name : String
  description : Option String
  category : Option String
  subcategory : Option String
  division_id : Option String
  is_active : Bool
  embedding : Option (List ℚ)
deriving Repr, DecidableEq

/-- Python truthiness of a nullable string column: `None` and `""` are
falsy, every other string is truthy.  This is the test performed by the
`if description:` style guards in `create_product_text`. -/
def strTruthy : Option String → Bool
  | none => false
  | some s => !s.isEmpty

/-- The fixed `division_names` dictionary of `create_product_text`
(lines 86-91 of the script). -/
def division_names (d : String) : Option String :=
  if d = "AERO" then some "Aerospace Division - turbine blades, engine housings, landing gear"
  else if d = "ENERGY" then some "Energy Division - wind turbines, solar frames, valves"
  else if d = "MOBILITY" then some "Mobility Division - EV motors, battery enclosures"
  else if d = "INDUSTRIAL" then some "Industrial Division - CNC parts, bearings, hydraulics"
  else none

/-- Python `sep.join(parts)`. -/
def joinSep (sep : String) : List String → String
  | [] => ""
  | [s] => s
  | s :: rest => s ++ sep ++ joinSep sep rest

/-- `create_product_text` (lines 66-94): builds the `parts` list by
conditional appends and joins it with `". "`. -/
def create_product_text (p : Product) : String :=
  let parts : List String := [p.name]
  let parts := if strTruthy p.description then parts ++ [p.description.getD ""] else parts
  let parts := if strTruthy p.category then parts ++ ["Category: " ++ p.category.getD ""] else parts
  let parts := if strTruthy p.subcategory then parts ++ ["Subcategory: " ++ p.subcategory.getD ""] else parts
  let parts :=
    if strTruthy p.division_id then
      parts ++ [(division_names (p.division_id.getD "")).getD ("Division: " ++ p.division_id.getD "")]
    else parts
  joinSep ". " parts

/-- Spec-side description of the composer (§4.1): the ordered list of
segments — name; description if present; `"Category: <c>"` if present;
`"Subcategory: <s>"` if present; the division expansion with fallback
`"Division: <code>"` — joined with `". "`. -/
def specSegments (p : Product) : List String :=
  [p.name]
  ++ (if strTruthy p.description then [p.description.getD ""] else [])
  ++ (if strTruthy p.category then ["Category: " ++ p.category.getD ""] else [])
  ++ (if strTruthy p.subcategory then ["Subcategory: " ++ p.subcategory.getD ""] else [])
  ++ (if strTruthy p.division_id then
        [(division_names (p.division_id.getD "")).getD ("Division: " ++ p.division_id.getD "")]
      else [])

/-- Spec-side composer: the segments of `specSegments`, joined with `". "`. -/
def composeSpec (p : Product) : String := joinSep ". " (specSegments p)

/-- The space character, used to state the no-whitespace property. -/
def spaceChar : Char := Char.ofNat 32

/-- Digit character for `n % 10`. -/
def natDigitChar : Nat → Char
  | 0 => '0'
  | 1 => '1'
  | 2 => '2'
  | 3 => '3'
  | 4 => '4'
  | 5 => '5'
  | 6 => '6'
  | 7 => '7'
  | 8 => '8'
  | _ => '9'

/-- Fueled base-10 digit expansion, most significant digit first. -/
def digitsAux : Nat → Nat → List Char
  | 0, _ => []
  | fuel + 1, n =>
    if n < 10 then [natDigitChar n]
    else digitsAux fuel (n / 10) ++ [natDigitChar (n % 10)]

/-- Base-10 digits of a natural number, most significant digit first. -/
def natToDigits (n : Nat) : List Char := digitsAux (n + 1) n

/-- Python `str` on a float value with a finite decimal expansion, applied
to its exact rational value: the shortest plain decimal form, with at least
one fractional digit (so `1` renders as `"1.0"`, `1/10` as `"0.1"`,
`-1/5` as `"-0.2"`).  Rationals without a short finite decimal expansion
are outside the script's rendering domain and map to `"?"`. -/
def renderScaled (m : Int) (k : Nat) : String :=
  let sign : String := if m < 0 then "-" else ""
  let digits := natToDigits m.natAbs
  let padded := if digits.length ≤ k then List.replicate (k + 1 - digits.length) '0' ++ digits else digits
  if k = 0 then sign ++ String.mk padded ++ ".0"
  else sign ++ String.mk (padded.take (padded.length - k)) ++ "." ++ String.mk (padded.drop (padded.length - k))

/-- Decimal rendering of a rational: scale by the least power of ten that
clears the denominator and place the decimal point. -/
def ratToDecimal (q : ℚ) : String :=
  match (List.range 18).find? (fun k => decide (q.den ∣ 10 ^ k)) with
  | some k => renderScaled ((q.num * (10 : Int) ^ k) / (q.den : Int)) k
  | none => "?"

/-- `format_embedding_for_pgvector` (lines 110-112):
`"[" + ",".join(str(x) for x in embedding) + "]"`. -/
def format_embedding_for_pgvector (embedding : List ℚ) : String :=
  "[" ++ joinSep "," (embedding.map ratToDecimal) ++ "]"

/-- Numeric value of a digit character, `none` on non-digits. -/
def digitVal (c : Char) : Option Nat :=
  if c = '0' then some 0
  else if c = '1' then some 1
  else if c = '2' then some 2
  else if c = '3' then some 3
  else if c = '4' then some 4
  else if c = '5' then some 5
  else if c = '6' then some 6
  else if c = '7' then some 7
  else if c = '8' then some 8
  else if c = '9' then some 9
  else none

/-- Parse a non-empty digit string into a natural number. -/
def parseNatChars (cs : List Char) : Option Nat :=
  if cs.isEmpty then none
  else cs.foldlM (fun acc c => (digitVal c).map (fun d => acc * 10 + d)) 0

/-- Parse a plain decimal literal (optional leading `-`, digits, optional
`.` and fractional digits) into an exact rational. -/
def parseDecimal (cs : List Char) : Option ℚ :=
  let signAndBody : Bool × List Char :=
    match cs with
    | '-' :: rest => (true, rest)
    | _ => (false, cs)
  let neg := signAndBody.1
  let body := signAndBody.2
  match body.splitOn '.' with
  | [ip] =>
    (parseNatChars ip).map (fun n => mkRat (if neg then -(n : Int) else (n : Int)) 1)
  | [ip, fp] =>
    match parseNatChars ip, parseNatChars fp with
    | some i, some f =>
      let scaled : Int := (i : Int) * (10 : Int) ^ fp.length + (f : Int)
      some (mkRat (if neg then -scaled else scaled) (10 ^ fp.length))
    | _, _ => none
  | _ => none

/-- Parse the store's textual vector literal `"[v0,v1,...,vn]"` back into
a list of rationals. -/
def parseVectorLiteral (s : String) : Option (List ℚ) :=
  match s.data with
  | '[' :: rest =>
    if rest.getLast? = some ']' then
      ((rest.dropLast).splitOn ',').mapM parseDecimal
    else none
  | _ => none

/-- A string has no whitespace when none of its characters is a space. -/
def noSpaceStr (s : String) : Bool := s.data.all (fun c => !(c == spaceChar))

/-- Substring test on character lists, modelling Python's `in` on strings. -/
def containsSubstrChars (hay needle : List Char) : Bool :=
  needle.isPrefixOf hay ||
    match hay with
    | [] => false
    | _ :: t => containsSubstrChars t needle

/-- Python `needle in hay` on strings. -/
def containsSubstr (hay needle : String) : Bool := containsSubstrChars hay.data needle.data

/-- The configuration surface of the script (lines 44-54): every value the
script reads from its environment, with the documented defaults applied. -/
structure Config where
  greenplum_host : String
  greenplum_port : String
  greenplum_db : String
  greenplum_user : String
  greenplum_password : String
  openai_api_key : Option String
  openai_base_url : String
  embedding_model : String
  batch_size : Nat
deriving Repr, DecidableEq

/-- Configuration resolution from an environment (lines 44-54): each
variable is looked up with `os.getenv` and given its documented default
when absent. -/
def configFromEnv (getenv : String → Option String) : Config where
  greenplum_host := (getenv "GREENPLUM_HOST").getD "localhost"
  greenplum_port := (getenv "GREENPLUM_PORT").getD "15432"
  greenplum_db := (getenv "GREENPLUM_DB").getD "titan-manufacturing"
  greenplum_user := (getenv "GREENPLUM_USER").getD "gpadmin"
  greenplum_password := (getenv "GREENPLUM_PASSWORD").getD "VMware1!"
  openai_api_key := getenv "OPENAI_API_KEY"
  openai_base_url := (getenv "OPENAI_BASE_URL").getD "https://api.openai.com/v1"
  embedding_model := (getenv "EMBEDDING_MODEL").getD "text-embedding-3-small"
  batch_size := (parseNatChars ((getenv "BATCH_SIZE").getD "50").data).getD 0

/-- The post-batch sleep duration (line 217): `time.sleep(0.1)` — a fixed
tenth of a second, taken from no configuration field. -/
def sleepDurationPerBatch (_cfg : Config) : ℚ := mkRat 1 10

/-- Python truthiness of the API key value: `os.getenv` yields `None` when
the variable is unset, and `not OPENAI_API_KEY` is also true for `""`. -/
def keyMissing : Option String → Bool
  | none => true
  | some s => s.isEmpty

/-- The failure causes of a provider call listed by the spec (§4.2). -/
inductive ProviderError where
  | timeout
  | malformedResponse
  | quotaExceeded
  | rateLimited
  | other
deriving Repr, DecidableEq

/-- Outcome of one raw call to the embedding endpoint: a vector, or a
raised error. -/
inductive ProviderOutcome where
  | ok (v : List ℚ)
  | err (e : ProviderError)
deriving Repr, DecidableEq

/-- The embedding provider as an oracle from input text to an outcome. -/
abbrev Provider := String → ProviderOutcome

/-- `generate_embedding` (lines 97-107): performs the provider call inside
`try`, returning the vector on success and `None` on any raised error. -/
def generate_embedding (client : Provider) (text : String) : Option (List ℚ) :=
  match client text with
  | .ok v => some v
  | .err _ => none

/-- The persistence layer as an oracle: whether the `UPDATE` of a given
sku with a given vector literal succeeds (lines 195-198 run inside `try`). -/
abbrev Persistence := String → String → Bool

/-- Row-eligibility predicate of the work-list query (line 172):
`is_active = TRUE AND embedding IS NULL`. -/
def eligible (p : Product) : Bool := p.is_active && p.embedding.isNone

/-- `SELECT COUNT(*) FROM products WHERE embedding IS NOT NULL`
(lines 150 and 228) — no `is_active` filter. -/
def countEmbedded (db : List Product) : Nat :=
  (db.filter (fun p => p.embedding.isSome)).length

/-- `SELECT COUNT(*) FROM products WHERE is_active = TRUE` (line 153). -/
def countActive (db : List Product) : Nat :=
  (db.filter (fun p => p.is_active)).length

/-- Number of rows the work-list query would return. -/
def countEligible (db : List Product) : Nat := (db.filter eligible).length

/-- Lexicographic comparison of character lists by code point, modelling
the byte-wise text ordering used by `ORDER BY sku`. -/
def lexLeChars : List Char → List Char → Bool
  | [], _ => true
  | _ :: _, [] => false
  | a :: as, b :: bs =>
    if a.toNat < b.toNat then true
    else if b.toNat < a.toNat then false
    else lexLeChars as bs

/-- String comparison by code point. -/
def strLe (a b : String) : Bool := lexLeChars a.data b.data

/-- `ORDER BY sku` comparison on rows. -/
def skuLe (a b : Product) : Bool := strLe a.sku b.sku

/-- Insert into a list sorted by `le`, keeping it sorted. -/
def orderedInsert {α : Type} (le : α → α → Bool) (a : α) : List α → List α
  | [] => [a]
  | b :: rest => if le a b then a :: b :: rest else b :: orderedInsert le a rest

/-- Insertion sort by a boolean relation. -/
def insertionSortBy {α : Type} (le : α → α → Bool) : List α → List α
  | [] => []
  | a :: rest => orderedInsert le a (insertionSortBy le rest)

/-- The work-list query (lines 169-175): active rows without an embedding,
`ORDER BY sku`. -/
def fetchPending (db : List Product) : List Product :=
  insertionSortBy skuLe (db.filter eligible)

/-- `UPDATE products SET embedding = ... WHERE sku = ...` (lines 195-198). -/
def updateEmbedding (db : List Product) (sku : String) (v : List ℚ) : List Product :=
  db.map (fun p => if p.sku = sku then { p with embedding := some v } else p)

/-- In-memory state of the processing loop: the store, the two counters,
and the observable events of the run (provider calls, commit points,
progress reports, sleeps). -/
structure LoopState where
  db : List Product
  success_count : Nat
  error_count : Nat
  providerCalls : Nat
  commitsAt : List Nat
  reports : List Nat
  sleptFor : List ℚ
deriving Repr, DecidableEq

/-- The body of one loop iteration for one product (lines 184-204):
compose the text, call the provider, and on a truthy vector attempt the
`UPDATE`, counting exactly one of success or error. -/
def processRecord (client : Provider) (persist : Persistence) (st : LoopState) (p : Product) : LoopState :=
  let text := create_product_text p
  let st := { st with providerCalls := st.providerCalls + 1 }
  match generate_embedding client text with
  | some v =>
    if v.isEmpty then { st with error_count := st.error_count + 1 }
    else
      let embedding_str := format_embedding_for_pgvector v
      if persist p.sku embedding_str then
        { st with db := updateEmbedding st.db p.sku v, success_count := st.success_count + 1 }
      else
        { st with error_count := st.error_count + 1 }
  | none => { st with error_count := st.error_count + 1 }

/-- The end-of-iteration batch boundary (lines 206-217): when
`(i + 1) % BATCH_SIZE == 0`, commit, emit a progress report, and sleep
0.1 s when the base URL contains `"openai.com"`. -/
def batchBoundary (cfg : Config) (st : LoopState) (i : Nat) : LoopState :=
  if (i + 1) % cfg.batch_size = 0 then
    let st := { st with commitsAt := st.commitsAt ++ [i + 1], reports := st.reports ++ [i + 1] }
    if containsSubstr cfg.openai_base_url "openai.com" then
      { st with sleptFor := st.sleptFor ++ [sleepDurationPerBatch cfg] }
    else st
  else st

/-- The `for i, product in enumerate(products)` loop (lines 184-217). -/
def runLoop (cfg : Config) (client : Provider) (persist : Persistence) :
    LoopState → List Product → Nat → LoopState
  | st, [], _ => st
  | st, p :: rest, i =>
    runLoop cfg client persist (batchBoundary cfg (processRecord client persist st p) i) rest (i + 1)

/-- Everything observable about one invocation of `main`. -/
structure RunReport where
  exitCode : Nat
  nothingToDo : Bool
  existing_count : Nat
  total_count : Nat
  success_count : Nat
  error_count : Nat
  providerCalls : Nat
  commitsAt : List Nat
  commitsTotal : Nat
  reports : List Nat
  sleptFor : List ℚ
  db : List Product
  final_count : Nat
  probeRan : Bool
deriving Repr, DecidableEq

/-- Report of a run aborted by a fatal precondition (`sys.exit(1)` at
line 125 or line 147): nothing was processed and the store is untouched. -/
def fatalReport (code : Nat) (db : List Product) : RunReport where
  exitCode := code
  nothingToDo := false
  existing_count := 0
  total_count := 0
  success_count := 0
  error_count := 0
  providerCalls := 0
  commitsAt := []
  commitsTotal := 0
  reports := []
  sleptFor := []
  db := db
  final_count := 0
  probeRan := false

/-- The initial loop state for a store state. -/
def initState (db : List Product) : LoopState where
  db := db
  success_count := 0
  error_count := 0
  providerCalls := 0
  commitsAt := []
  reports := []
  sleptFor := []

/-- The worked part of `main` (lines 167-255): fetch the work list, run
the loop, final commit, re-query the embedded count, and run the semantic
search probe (one more provider call) when at least one record succeeded. -/
def workBranch (cfg : Config) (client : Provider) (persist : Persistence)
    (db : List Product) (existing_count total_count : Nat) : RunReport :=
  let products := fetchPending db
  let st := runLoop cfg client persist (initState db) products 0
  let probeRan := decide (0 < st.success_count)
  { exitCode := 0
    nothingToDo := false
    existing_count := existing_count
    total_count := total_count
    success_count := st.success_count
    error_count := st.error_count
    providerCalls := st.providerCalls + (if probeRan then 1 else 0)
    commitsAt := st.commitsAt
    commitsTotal := st.commitsAt.length + 1
    reports := st.reports
    sleptFor := st.sleptFor
    db := st.db
    final_count := countEmbedded st.db
    probeRan := probeRan }

/-- Report of a run that found `existing_count == total_count` and took
the `"Nothing to do."` early return (lines 161-165). -/
def nothingToDoReport (db : List Product) (existing_count total_count : Nat) : RunReport where
  exitCode := 0
  nothingToDo := true
  existing_count := existing_count
  total_count := total_count
  success_count := 0
  error_count := 0
  providerCalls := 0
  commitsAt := []
  commitsTotal := 0
  reports := []
  sleptFor := []
  db := db
  final_count := existing_count
  probeRan := false

/-- `main` (lines 115-262).  `storeReachable` models whether
`psycopg2.connect` succeeds. -/
def runMain (cfg : Config) (storeReachable : Bool) (client : Provider)
    (persist : Persistence) (db : List Product) : RunReport :=
  if keyMissing cfg.openai_api_key && !containsSubstr cfg.openai_base_url "localhost" then
    fatalReport 1 db
  else if !storeReachable then
    fatalReport 1 db
  else
    let existing_count := countEmbedded db
    let total_count := countActive db
    if existing_count = total_count then
      nothingToDoReport db existing_count total_count
    else
      workBranch cfg client persist db existing_count total_count

/-- The in-loop commit points of a loop over `n` records starting at index
`i` with batch size `B`: the processed counts `i + j + 1` that are
multiples of `B`. -/
def commitPoints (i n B : Nat) : List Nat :=
  (List.range n).filterMap (fun j => if (i + j + 1) % B = 0 then some (i + j + 1) else none)

/-- A configuration pointing at the metered OpenAI endpoint, with an API
key present and the default batch size 50. -/
def cfgOpenAI : Config where
  greenplum_host := "localhost"
  greenplum_port := "15432"
  greenplum_db := "titan-manufacturing"
  greenplum_user := "gpadmin"
  greenplum_password := "VMware1!"
  openai_api_key := some "sk-test"
  openai_base_url := "https://api.openai.com/v1"
  embedding_model := "text-embedding-3-small"
  batch_size := 50

/-- A configuration with no API key and a non-local base URL. -/
def cfgNoKey : Config := { cfgOpenAI with openai_api_key := none }

/-- A configuration with no API key but a local (Ollama-style) base URL. -/
def cfgOllama : Config :=
  { cfgOpenAI with openai_api_key := none, openai_base_url := "http://localhost:11434/v1" }

/-- A provider that always answers with the one-component vector `[0.5]`. -/
def clientOk : Provider := fun _ => .ok [mkRat 1 2]

/-- A provider that always times out. -/
def clientDown : Provider := fun _ => .err .timeout

/-- A persistence layer whose updates always succeed. -/
def persistAlways : Persistence := fun _ _ => true

/-- An active, not-yet-embedded product row with a given sku. -/
def activeBlank (sku : String) : Product where
  sku := sku
  name := "part"
  description := none
  category := none
  subcategory := none
  division_id := none
  is_active := true
  embedding := none

/-- An active row that already carries an embedding. -/
def activeEmbedded (sku : String) : Product :=
  { activeBlank sku with embedding := some [mkRat 1 2] }

/-- An inactive row that carries an embedding. -/
def inactiveEmbedded (sku : String) : Product :=
  { activeBlank sku with is_active := false, embedding := some [mkRat 1 2] }

/-- A store of 120 active, not-yet-embedded products with distinct skus
`"100"` to `"219"`, for the batch scenario of §8. -/
def db120 : List Product := (List.range 120).map (fun i => activeBlank (toString (100 + i)))

/-- A store with zero eligible records in which an inactive row holds an
embedding: the completion check `existing_count == total_count` compares
2 with 1 and fails. -/
def dbInactiveExtra : List Product := [activeEmbedded "A", inactiveEmbedded "B"]

/-- A store in which an eligible active row remains, yet the completion
check compares 2 with 2 and passes, because an inactive row's embedding is
counted. -/
def dbFalseComplete : List Product :=
  [activeBlank "A", activeEmbedded "B", inactiveEmbedded "C"]

/-- A one-row store with work to do. -/
def dbOneBlank : List Product := [activeBlank "A"]

/-- An environment for the claim that the rate-limit delay is
configurable: it sets every variable, including a purported delay
variable. -/
def envA : String → Option String
  | "GREENPLUM_HOST" => some "hostA"
  | "GREENPLUM_PORT" => some "1111"
  | "GREENPLUM_DB" => some "dbA"
  | "GREENPLUM_USER" => some "userA"
  | "GREENPLUM_PASSWORD" => some "pwA"
  | "OPENAI_API_KEY" => some "keyA"
  | "OPENAI_BASE_URL" => some "https://api.openai.com/v1"
  | "EMBEDDING_MODEL" => some "modelA"
  | "BATCH_SIZE" => some "2"
  | "RATE_LIMIT_DELAY" => some "5"
  | _ => none

/-- A store of four eligible records, so that batch size 2 yields two full
batches. -/
def dbFour : List Product :=
  [activeBlank "A", activeBlank "B", activeBlank "C", activeBlank "D"]

/-- A fully populated product, with a division code covered by the fixed
mapping. -/
def exFullProduct : Product where
  sku := "IND-1001"
  name := "Bearing X"
  description := some "High temperature bearing"
  category := some "Bearings"
  subcategory := some "Spindle"
  division_id := some "INDUSTRIAL"
  is_active := true
  embedding := none

/-- A product whose division code is outside the fixed mapping. -/
def exUnknownDivision : Product :=
  { activeBlank "Z-1" with division_id := some "XYZ" }

/-- A second environment differing from `envA` in every variable,
including the purported delay variable. -/
def envB : String → Option String
  | "GREENPLUM_HOST" => some "hostB"
  | "GREENPLUM_PORT" => some "2222"
  | "GREENPLUM_DB" => some "dbB"
  | "GREENPLUM_USER" => some "userB"
  | "GREENPLUM_PASSWORD" => some "pwB"
  | "OPENAI_API_KEY" => some "keyB"
  | "OPENAI_BASE_URL" => some "https://api.openai.com/v2"
  | "EMBEDDING_MODEL" => some "modelB"
  | "BATCH_SIZE" => some "3"
  | "RATE_LIMIT_DELAY" => some "9"
  | _ => none

theorem orderedInsert_perm {α : Type} (le : α → α → Bool) (a : α) :
    ∀ l : List α, List.Perm (orderedInsert le a l) (a :: l)
  | [] => List.Perm.refl _
  | b :: rest => by
    unfold orderedInsert
    by_cases h : le a b = true
    · simp [h]
    · simp only [h, Bool.false_eq_true, if_false]
      exact (List.Perm.cons b (orderedInsert_perm le a rest)).trans (List.Perm.swap a b rest)

theorem insertionSortBy_perm {α : Type} (le : α → α → Bool) :
    ∀ l : List α, List.Perm (insertionSortBy le l) l
  | [] => List.Perm.refl _
  | a :: rest =>
    (orderedInsert_perm le a (insertionSortBy le rest)).trans
      (List.Perm.cons a (insertionSortBy_perm le rest))

theorem mem_orderedInsert {α : Type} (le : α → α → Bool) (a x : α) (l : List α) :
    x ∈ orderedInsert le a l ↔ x = a ∨ x ∈ l := by
  rw [(orderedInsert_perm le a l).mem_iff, List.mem_cons]

theorem pairwise_orderedInsert {α : Type} (le : α → α → Bool)
    (htot : ∀ a b, (le a b || le b a) = true)
    (htrans : ∀ a b c, le a b = true → le b c = true → le a c = true) (a : α) :
    ∀ l : List α, List.Pairwise (fun x y => le x y = true) l →
      List.Pairwise (fun x y => le x y = true) (orderedInsert le a l)
  | [], _ => by simp [orderedInsert]
  | b :: rest, h => by
    rcases List.pairwise_cons.1 h with ⟨hb, hrest⟩
    unfold orderedInsert
    by_cases hab : le a b = true
    · simp only [hab, if_true]
      refine List.pairwise_cons.2 ⟨?_, h⟩
      intro x hx
      rcases List.mem_cons.1 hx with rfl | hx
      · exact hab
      · exact htrans a b x hab (hb x hx)
    · simp only [hab, Bool.false_eq_true, if_false]
      refine List.pairwise_cons.2 ⟨?_, pairwise_orderedInsert le htot htrans a rest hrest⟩
      intro x hx
      rcases (mem_orderedInsert le a x rest).1 hx with rfl | hx
      · have := htot x b
        rcases Bool.or_eq_true_iff.1 this with h1 | h1
        · exact absurd h1 hab
        · exact h1
      · exact hb x hx

theorem pairwise_insertionSortBy {α : Type} (le : α → α → Bool)
    (htot : ∀ a b, (le a b || le b a) = true)
    (htrans : ∀ a b c, le a b = true → le b c = true → le a c = true) :
    ∀ l : List α, List.Pairwise (fun x y => le x y = true) (insertionSortBy le l)
  | [] => List.Pairwise.nil
  | a :: rest =>
    pairwise_orderedInsert le htot htrans a (insertionSortBy le rest)
      (pairwise_insertionSortBy le htot htrans rest)

theorem lexLeChars_total : ∀ as bs : List Char, (lexLeChars as bs || lexLeChars bs as) = true
  | [], _ => by simp [lexLeChars]
  | _ :: _, [] => by simp [lexLeChars]
  | a :: as, b :: bs => by
    simp only [lexLeChars]
    rcases Nat.lt_trichotomy a.toNat b.toNat with h | h | h
    · simp [h]
    · simp only [h, Nat.lt_irrefl, if_false]
      exact lexLeChars_total as bs
    · simp [h, Nat.lt_asymm h]

theorem lexLeChars_trans :
    ∀ as bs cs : List Char, lexLeChars as bs = true → lexLeChars bs cs = true →
      lexLeChars as cs = true
  | [], _, _, _, _ => by simp [lexLeChars]
  | _ :: _, [], _, h1, _ => by simp [lexLeChars] at h1
  | _ :: _, _ :: _, [], _, h2 => by simp [lexLeChars] at h2
  | a :: as, b :: bs, c :: cs, h1, h2 => by
    simp only [lexLeChars] at h1 h2 ⊢
    have H1 : a.toNat < b.toNat ∨ (a.toNat = b.toNat ∧ lexLeChars as bs = true) := by
      by_cases h : a.toNat < b.toNat
      · exact Or.inl h
      · by_cases h' : b.toNat < a.toNat
        · rw [if_neg h, if_pos h'] at h1
          exact absurd h1 (by simp)
        · rw [if_neg h, if_neg h'] at h1
          exact Or.inr ⟨by omega, h1⟩
    have H2 : b.toNat < c.toNat ∨ (b.toNat = c.toNat ∧ lexLeChars bs cs = true) := by
      by_cases h : b.toNat < c.toNat
      · exact Or.inl h
      · by_cases h' : c.toNat < b.toNat
        · rw [if_neg h, if_pos h'] at h2
          exact absurd h2 (by simp)
        · rw [if_neg h, if_neg h'] at h2
          exact Or.inr ⟨by omega, h2⟩
    rcases H1 with hab | ⟨hab, htail1⟩
    · rcases H2 with hbc | ⟨hbc, _⟩
      · rw [if_pos (by omega : a.toNat < c.toNat)]
      · rw [if_pos (by omega : a.toNat < c.toNat)]
    · rcases H2 with hbc | ⟨hbc, htail2⟩
      · rw [if_pos (by omega : a.toNat < c.toNat)]
      · rw [if_neg (by omega : ¬ a.toNat < c.toNat), if_neg (by omega : ¬ c.toNat < a.toNat)]
        exact lexLeChars_trans as bs cs htail1 htail2

theorem skuLe_total : ∀ a b : Product, (skuLe a b || skuLe b a) = true := by
  intro a b
  exact lexLeChars_total a.sku.data b.sku.data

theorem skuLe_trans : ∀ a b c : Product, skuLe a b = true → skuLe b c = true → skuLe a c = true := by
  intro a b c h1 h2
  exact lexLeChars_trans a.sku.data b.sku.data c.sku.data h1 h2

theorem fetchPending_perm (db : List Product) :
    List.Perm (fetchPending db) (db.filter eligible) :=
  insertionSortBy_perm skuLe (db.filter eligible)

theorem fetchPending_sorted (db : List Product) :
    List.Pairwise (fun a b => skuLe a b = true) (fetchPending db) :=
  pairwise_insertionSortBy skuLe skuLe_total skuLe_trans (db.filter eligible)

theorem processRecord_success_or_error (client : Provider) (persist : Persistence)
    (st : LoopState) (p : Product) :
    ((processRecord client persist st p).success_count = st.success_count + 1
      ∧ (processRecord client persist st p).error_count = st.error_count)
    ∨ ((processRecord client persist st p).success_count = st.success_count
      ∧ (processRecord client persist st p).error_count = st.error_count + 1) := by
  simp only [processRecord]
  cases hge : generate_embedding client (create_product_text p) with
  | none => exact Or.inr (by constructor <;> trivial)
  | some v =>
    by_cases he : v = []
    · simp only [he, List.isEmpty_nil, if_true]
      exact Or.inr (by constructor <;> trivial)
    · simp only [List.isEmpty_iff, he, if_false]
      by_cases hp : persist p.sku (format_embedding_for_pgvector v) = true
      · simp only [hp, if_true]
        exact Or.inl (by constructor <;> trivial)
      · simp only [hp, if_false]
        exact Or.inr (by constructor <;> trivial)

theorem processRecord_counts (client : Provider) (persist : Persistence)
    (st : LoopState) (p : Product) :
    (processRecord client persist st p).success_count
      + (processRecord client persist st p).error_count
      = st.success_count + st.error_count + 1 := by
  rcases processRecord_success_or_error client persist st p with ⟨h1, h2⟩ | ⟨h1, h2⟩ <;>
    rw [h1, h2] <;> omega

theorem processRecord_providerCalls (client : Provider) (persist : Persistence)
    (st : LoopState) (p : Product) :
    (processRecord client persist st p).providerCalls = st.providerCalls + 1 := by
  simp only [processRecord]
  cases hge : generate_embedding client (create_product_text p) with
  | none => rfl
  | some v =>
    by_cases he : v = []
    · simp [he]
    · by_cases hp : persist p.sku (format_embedding_for_pgvector v) = true <;> simp [he, hp]

theorem processRecord_commitsAt (client : Provider) (persist : Persistence)
    (st : LoopState) (p : Product) :
    (processRecord client persist st p).commitsAt = st.commitsAt := by
  simp only [processRecord]
  cases hge : generate_embedding client (create_product_text p) with
  | none => rfl
  | some v =>
    by_cases he : v = []
    · simp [he]
    · by_cases hp : persist p.sku (format_embedding_for_pgvector v) = true <;> simp [he, hp]

theorem processRecord_reports (client : Provider) (persist : Persistence)
    (st : LoopState) (p : Product) :
    (processRecord client persist st p).reports = st.reports := by
  simp only [processRecord]
  cases hge : generate_embedding client (create_product_text p) with
  | none => rfl
  | some v =>
    by_cases he : v = []
    · simp [he]
    · by_cases hp : persist p.sku (format_embedding_for_pgvector v) = true <;> simp [he, hp]

theorem processRecord_sleptFor (client : Provider) (persist : Persistence)
    (st : LoopState) (p : Product) :
    (processRecord client persist st p).sleptFor = st.sleptFor := by
  simp only [processRecord]
  cases hge : generate_embedding client (create_product_text p) with
  | none => rfl
  | some v =>
    by_cases he : v = []
    · simp [he]
    · by_cases hp : persist p.sku (format_embedding_for_pgvector v) = true <;> simp [he, hp]

theorem processRecord_db_cases (client : Provider) (persist : Persistence)
    (st : LoopState) (p : Product) :
    (processRecord client persist st p).db = st.db
    ∨ ∃ v, (processRecord client persist st p).db = updateEmbedding st.db p.sku v := by
  simp only [processRecord]
  cases hge : generate_embedding client (create_product_text p) with
  | none => exact Or.inl rfl
  | some v =>
    by_cases he : v = []
    · simp only [he, List.isEmpty_nil, if_true]
      exact Or.inl (by trivial)
    · simp only [List.isEmpty_iff, he, if_false]
      by_cases hp : persist p.sku (format_embedding_for_pgvector v) = true
      · simp only [hp, if_true]
        exact Or.inr ⟨v, rfl⟩
      · simp only [hp, if_false]
        exact Or.inl (by trivial)

theorem processRecord_db_of_ok (client : Provider) (persist : Persistence)
    (st : LoopState) (p : Product) (v : List ℚ)
    (hc : client (create_product_text p) = ProviderOutcome.ok v) (hv : v ≠ [])
    (hp : persist p.sku (format_embedding_for_pgvector v) = true) :
    (processRecord client persist st p).db = updateEmbedding st.db p.sku v := by
  simp only [processRecord, generate_embedding, hc]
  simp [List.isEmpty_iff, hv, hp]

theorem processRecord_error_of_err (client : Provider) (persist : Persistence)
    (st : LoopState) (p : Product) (e : ProviderError)
    (hc : client (create_product_text p) = ProviderOutcome.err e) :
    processRecord client persist st p
      = { st with providerCalls := st.providerCalls + 1, error_count := st.error_count + 1 } := by
  simp only [processRecord, generate_embedding, hc]

theorem processRecord_error_of_persist_fail (client : Provider) (persist : Persistence)
    (st : LoopState) (p : Product) (v : List ℚ)
    (hc : client (create_product_text p) = ProviderOutcome.ok v) (hv : v ≠ [])
    (hp : persist p.sku (format_embedding_for_pgvector v) = false) :
    processRecord client persist st p
      = { st with providerCalls := st.providerCalls + 1, error_count := st.error_count + 1 } := by
  simp only [processRecord, generate_embedding, hc]
  simp [List.isEmpty_iff, hv, hp]

theorem batchBoundary_db (cfg : Config) (st : LoopState) (i : Nat) :
    (batchBoundary cfg st i).db = st.db := by
  unfold batchBoundary
  split
  · split <;> rfl
  · rfl

theorem batchBoundary_success (cfg : Config) (st : LoopState) (i : Nat) :
    (batchBoundary cfg st i).success_count = st.success_count := by
  unfold batchBoundary
  split
  · split <;> rfl
  · rfl

theorem batchBoundary_error (cfg : Config) (st : LoopState) (i : Nat) :
    (batchBoundary cfg st i).error_count = st.error_count := by
  unfold batchBoundary
  split
  · split <;> rfl
  · rfl

theorem batchBoundary_providerCalls (cfg : Config) (st : LoopState) (i : Nat) :
    (batchBoundary cfg st i).providerCalls = st.providerCalls := by
  unfold batchBoundary
  split
  · split <;> rfl
  · rfl

theorem batchBoundary_commitsAt (cfg : Config) (st : LoopState) (i : Nat) :
    (batchBoundary cfg st i).commitsAt
      = st.commitsAt ++ (if (i + 1) % cfg.batch_size = 0 then [i + 1] else []) := by
  unfold batchBoundary
  split
  · split <;> simp [*]
  · simp [*]

theorem batchBoundary_reports (cfg : Config) (st : LoopState) (i : Nat) :
    (batchBoundary cfg st i).reports
      = st.reports ++ (if (i + 1) % cfg.batch_size = 0 then [i + 1] else []) := by
  unfold batchBoundary
  split
  · split <;> simp [*]
  · simp [*]

theorem batchBoundary_sleptFor (cfg : Config) (st : LoopState) (i : Nat) :
    (batchBoundary cfg st i).sleptFor
      = st.sleptFor
        ++ (if (i + 1) % cfg.batch_size = 0 then
              (if containsSubstr cfg.openai_base_url "openai.com" = true
                then [sleepDurationPerBatch cfg] else [])
            else []) := by
  unfold batchBoundary
  split
  · split <;> simp [*]
  · simp [*]

theorem commitPoints_zero (i B : Nat) : commitPoints i 0 B = [] := rfl

theorem commitPoints_succ (i n B : Nat) :
    commitPoints i (n + 1) B
      = (if (i + 1) % B = 0 then [i + 1] else []) ++ commitPoints (i + 1) n B := by
  unfold commitPoints
  rw [List.range_succ_eq_map, List.filterMap_cons]
  have harith : ∀ j : Nat, i + Nat.succ j + 1 = i + 1 + j + 1 := by omega
  have hmap :
      List.filterMap (fun j => if (i + j + 1) % B = 0 then some (i + j + 1) else none)
          (List.map Nat.succ (List.range n))
        = List.filterMap (fun j => if (i + 1 + j + 1) % B = 0 then some (i + 1 + j + 1) else none)
          (List.range n) := by
    rw [List.filterMap_map]
    apply List.filterMap_congr
    intro j _
    simp [Function.comp, harith j]
  by_cases h : (i + 0 + 1) % B = 0
  · have h' : (i + 1) % B = 0 := by simpa using h
    simp only [h, if_true, h', hmap]
    simp
  · have h' : ¬ (i + 1) % B = 0 := by simpa using h
    simp only [h, if_false, h', hmap]
    simp

theorem runLoop_counts (cfg : Config) (client : Provider) (persist : Persistence) :
    ∀ (pending : List Product) (st : LoopState) (i : Nat),
      (runLoop cfg client persist st pending i).success_count
        + (runLoop cfg client persist st pending i).error_count
        = st.success_count + st.error_count + pending.length
  | [], st, i => by simp [runLoop]
  | p :: rest, st, i => by
    have ih := runLoop_counts cfg client persist rest
      (batchBoundary cfg (processRecord client persist st p) i) (i + 1)
    have h1 := processRecord_counts client persist st p
    have h2 := batchBoundary_success cfg (processRecord client persist st p) i
    have h3 := batchBoundary_error cfg (processRecord client persist st p) i
    simp only [runLoop] at ih ⊢
    rw [ih, h2, h3, List.length_cons]
    omega

theorem runLoop_providerCalls (cfg : Config) (client : Provider) (persist : Persistence) :
    ∀ (pending : List Product) (st : LoopState) (i : Nat),
      (runLoop cfg client persist st pending i).providerCalls
        = st.providerCalls + pending.length
  | [], st, i => by simp [runLoop]
  | p :: rest, st, i => by
    have ih := runLoop_providerCalls cfg client persist rest
      (batchBoundary cfg (processRecord client persist st p) i) (i + 1)
    have h1 := processRecord_providerCalls client persist st p
    have h2 := batchBoundary_providerCalls cfg (processRecord client persist st p) i
    simp only [runLoop] at ih ⊢
    rw [ih, h2, h1, List.length_cons]
    omega

theorem runLoop_commitsAt (cfg : Config) (client : Provider) (persist : Persistence) :
    ∀ (pending : List Product) (st : LoopState) (i : Nat),
      (runLoop cfg client persist st pending i).commitsAt
        = st.commitsAt ++ commitPoints i pending.length cfg.batch_size
  | [], st, i => by simp [runLoop, commitPoints_zero]
  | p :: rest, st, i => by
    have ih := runLoop_commitsAt cfg client persist rest
      (batchBoundary cfg (processRecord client persist st p) i) (i + 1)
    have h1 := processRecord_commitsAt client persist st p
    have h2 := batchBoundary_commitsAt cfg (processRecord client persist st p) i
    simp only [runLoop] at ih ⊢
    rw [ih, h2, h1, List.length_cons, commitPoints_succ, List.append_assoc]

theorem runLoop_reports (cfg : Config) (client : Provider) (persist : Persistence) :
    ∀ (pending : List Product) (st : LoopState) (i : Nat),
      (runLoop cfg client persist st pending i).reports
        = st.reports ++ commitPoints i pending.length cfg.batch_size
  | [], st, i => by simp [runLoop, commitPoints_zero]
  | p :: rest, st, i => by
    have ih := runLoop_reports cfg client persist rest
      (batchBoundary cfg (processRecord client persist st p) i) (i + 1)
    have h1 := processRecord_reports client persist st p
    have h2 := batchBoundary_reports cfg (processRecord client persist st p) i
    simp only [runLoop] at ih ⊢
    rw [ih, h2, h1, List.length_cons, commitPoints_succ, List.append_assoc]

theorem runLoop_sleptFor (cfg : Config) (client : Provider) (persist : Persistence) :
    ∀ (pending : List Product) (st : LoopState) (i : Nat),
      (runLoop cfg client persist st pending i).sleptFor
        = st.sleptFor
          ++ (if containsSubstr cfg.openai_base_url "openai.com" = true
                then (commitPoints i pending.length cfg.batch_size).map
                  (fun _ => sleepDurationPerBatch cfg)
                else [])
  | [], st, i => by
    simp only [runLoop, commitPoints_zero, List.map_nil]
    split <;> simp [commitPoints_zero]
  | p :: rest, st, i => by
    have ih := runLoop_sleptFor cfg client persist rest
      (batchBoundary cfg (processRecord client persist st p) i) (i + 1)
    have h1 := processRecord_sleptFor client persist st p
    have h2 := batchBoundary_sleptFor cfg (processRecord client persist st p) i
    simp only [runLoop] at ih ⊢
    rw [ih, h2, h1, List.length_cons, commitPoints_succ, List.append_assoc]
    congr 1
    by_cases ho : containsSubstr cfg.openai_base_url "openai.com" = true
    · simp only [ho, if_true, List.map_append]
      by_cases hc : (i + 1) % cfg.batch_size = 0 <;> simp [hc]
    · simp only [ho, if_false]
      by_cases hc : (i + 1) % cfg.batch_size = 0 <;> simp [hc, ho]

theorem runLoop_db_complete (cfg : Config) (client : Provider) (persist : Persistence)
    (hclient : ∀ t, ∃ v, client t = ProviderOutcome.ok v ∧ v ≠ [])
    (hpersist : ∀ sk s, persist sk s = true) :
    ∀ (pending : List Product) (st : LoopState) (i : Nat),
      (∀ q ∈ st.db, q.is_active = true →
        q.embedding.isSome = true ∨ ∃ p ∈ pending, p.sku = q.sku) →
      ∀ q ∈ (runLoop cfg client persist st pending i).db,
        q.is_active = true → q.embedding.isSome = true
  | [], st, i, hinv, q, hq, hact => by
    rcases hinv q hq hact with h | ⟨p, hp, _⟩
    · exact h
    · exact absurd hp (List.not_mem_nil p)
  | p :: rest, st, i, hinv, q, hq, hact => by
    obtain ⟨v, hcv, hvne⟩ := hclient (create_product_text p)
    have hbb : (batchBoundary cfg (processRecord client persist st p) i).db
        = updateEmbedding st.db p.sku v := by
      rw [batchBoundary_db, processRecord_db_of_ok client persist st p v hcv hvne (hpersist _ _)]
    have hinv' : ∀ r ∈ (batchBoundary cfg (processRecord client persist st p) i).db,
        r.is_active = true → r.embedding.isSome = true ∨ ∃ p' ∈ rest, p'.sku = r.sku := by
      rw [hbb]
      intro r hr hract
      unfold updateEmbedding at hr
      rcases List.mem_map.1 hr with ⟨r0, hr0, hfr⟩
      by_cases hsku : r0.sku = p.sku
      · rw [if_pos hsku] at hfr
        left
        rw [← hfr]
        rfl
      · rw [if_neg hsku] at hfr
        subst hfr
        rcases hinv r0 hr0 hract with h | ⟨p', hp', hpsku⟩
        · exact Or.inl h
        · rcases List.mem_cons.1 hp' with rfl | hp'rest
          · exact absurd hpsku.symm hsku
          · exact Or.inr ⟨p', hp'rest, hpsku⟩
    exact runLoop_db_complete cfg client persist hclient hpersist rest
      (batchBoundary cfg (processRecord client persist st p) i) (i + 1) hinv' q hq hact

theorem filter_eligible_nil_of_complete (db : List Product)
    (h : ∀ q ∈ db, q.is_active = true → q.embedding.isSome = true) :
    db.filter eligible = [] := by
  rw [List.filter_eq_nil_iff]
  intro q hq hcontra
  unfold eligible at hcontra
  rw [Bool.and_eq_true] at hcontra
  have h3 := h q hq hcontra.1
  have h2 := hcontra.2
  rw [Option.isNone_iff_eq_none] at h2
  rw [h2] at h3
  simp at h3

theorem runMain_eq (cfg : Config) (reach : Bool) (client : Provider)
    (persist : Persistence) (db : List Product) :
    runMain cfg reach client persist db
      = if (keyMissing cfg.openai_api_key
            && !containsSubstr cfg.openai_base_url "localhost") = true
          then fatalReport 1 db
        else if reach = false then fatalReport 1 db
        else if countEmbedded db = countActive db
          then nothingToDoReport db (countEmbedded db) (countActive db)
        else workBranch cfg client persist db (countEmbedded db) (countActive db) := by
  unfold runMain
  rcases reach <;>
    by_cases hk : (keyMissing cfg.openai_api_key
      && !containsSubstr cfg.openai_base_url "localhost") = true <;>
    simp [hk]

theorem workBranch_exitCode (cfg : Config) (client : Provider) (persist : Persistence)
    (db : List Product) (e t : Nat) :
    (workBranch cfg client persist db e t).exitCode = 0 := rfl

theorem workBranch_nothingToDo (cfg : Config) (client : Provider) (persist : Persistence)
    (db : List Product) (e t : Nat) :
    (workBranch cfg client persist db e t).nothingToDo = false := rfl

theorem workBranch_db (cfg : Config) (client : Provider) (persist : Persistence)
    (db : List Product) (e t : Nat) :
    (workBranch cfg client persist db e t).db
      = (runLoop cfg client persist (initState db) (fetchPending db) 0).db := rfl

theorem workBranch_success (cfg : Config) (client : Provider) (persist : Persistence)
    (db : List Product) (e t : Nat) :
    (workBranch cfg client persist db e t).success_count
      = (runLoop cfg client persist (initState db) (fetchPending db) 0).success_count := rfl

theorem workBranch_error (cfg : Config) (client : Provider) (persist : Persistence)
    (db : List Product) (e t : Nat) :
    (workBranch cfg client persist db e t).error_count
      = (runLoop cfg client persist (initState db) (fetchPending db) 0).error_count := rfl

theorem workBranch_commitsAt (cfg : Config) (client : Provider) (persist : Persistence)
    (db : List Product) (e t : Nat) :
    (workBranch cfg client persist db e t).commitsAt
      = (runLoop cfg client persist (initState db) (fetchPending db) 0).commitsAt := rfl

theorem workBranch_commitsTotal (cfg : Config) (client : Provider) (persist : Persistence)
    (db : List Product) (e t : Nat) :
    (workBranch cfg client persist db e t).commitsTotal
      = (runLoop cfg client persist (initState db) (fetchPending db) 0).commitsAt.length + 1 := rfl

theorem workBranch_reports (cfg : Config) (client : Provider) (persist : Persistence)
    (db : List Product) (e t : Nat) :
    (workBranch cfg client persist db e t).reports
      = (runLoop cfg client persist (initState db) (fetchPending db) 0).reports := rfl

theorem workBranch_sleptFor (cfg : Config) (client : Provider) (persist : Persistence)
    (db : List Product) (e t : Nat) :
    (workBranch cfg client persist db e t).sleptFor
      = (runLoop cfg client persist (initState db) (fetchPending db) 0).sleptFor := rfl

theorem workBranch_existing_count (cfg : Config) (client : Provider) (persist : Persistence)
    (db : List Product) (e t : Nat) :
    (workBranch cfg client persist db e t).existing_count = e := rfl

theorem workBranch_final_count (cfg : Config) (client : Provider) (persist : Persistence)
    (db : List Product) (e t : Nat) :
    (workBranch cfg client persist db e t).final_count
      = countEmbedded (runLoop cfg client persist (initState db) (fetchPending db) 0).db := rfl

theorem workBranch_providerCalls (cfg : Config) (client : Provider) (persist : Persistence)
    (db : List Product) (e t : Nat) :
    (workBranch cfg client persist db e t).providerCalls
      = (runLoop cfg client persist (initState db) (fetchPending db) 0).providerCalls
        + (if 0 < (runLoop cfg client persist (initState db) (fetchPending db) 0).success_count
            then 1 else 0) := by
  simp only [workBranch]
  by_cases h : 0 < (runLoop cfg client persist (initState db) (fetchPending db) 0).success_count <;>
    simp [h]

/-- C4: the run aborts with a non-zero exit code, before any record is
processed, exactly when the provider credential is missing (in Python
truthiness) for a base URL that does not contain `"localhost"`, or the
initial store connection cannot be established; in every such case the run
is the untouched `fatalReport`. -/
theorem claim4_fatal_preconditions (cfg : Config) (reach : Bool) (client : Provider)
    (persist : Persistence) (db : List Product) :
    ((runMain cfg reach client persist db).exitCode ≠ 0 ↔
      ((keyMissing cfg.openai_api_key = true
          ∧ containsSubstr cfg.openai_base_url "localhost" = false)
        ∨ reach = false))
    ∧ ((runMain cfg reach client persist db).exitCode ≠ 0 →
        runMain cfg reach client persist db = fatalReport 1 db) := by
  rw [runMain_eq]
  by_cases hk : (keyMissing cfg.openai_api_key
      && !containsSubstr cfg.openai_base_url "localhost") = true
  · rw [if_pos hk]
    rw [Bool.and_eq_true, Bool.not_eq_true'] at hk
    constructor
    · simp [fatalReport, hk.1, hk.2]
    · intro _
      rfl
  · rw [if_neg hk]
    rw [Bool.and_eq_true] at hk
    cases reach with
    | false =>
      constructor
      · simp [fatalReport]
      · intro _
        rfl
    | true =>
      rw [if_neg (by simp : ¬ (true = false))]
      have hnot : ¬ ((keyMissing cfg.openai_api_key = true
          ∧ containsSubstr cfg.openai_base_url "localhost" = false) ∨ true = false) := by
        rintro (⟨h1, h2⟩ | h)
        · rw [Bool.not_eq_true'] at hk
          exact absurd (hk ⟨h1, h2⟩) (by simp [h2])
        · exact absurd h (by simp)
      by_cases heq : countEmbedded db = countActive db
      · rw [if_pos heq]
        constructor
        · simp only [nothingToDoReport, ne_eq, not_true_eq_false]
          simpa using hnot
        · intro h
          exact absurd rfl h
      · rw [if_neg heq]
        constructor
        · rw [workBranch_exitCode]
          simpa using hnot
        · intro h
          exact absurd (workBranch_exitCode cfg client persist db _ _) h

/-- C4 witness: with no API key and the non-local OpenAI base URL, the run
exits non-zero as the pristine fatal report. -/
theorem claim4_witness :
    (runMain cfgNoKey true clientOk persistAlways dbOneBlank).exitCode ≠ 0
    ∧ runMain cfgNoKey true clientOk persistAlways dbOneBlank = fatalReport 1 dbOneBlank := by
  have h := claim4_fatal_preconditions cfgNoKey true clientOk persistAlways dbOneBlank
  have h1 : (runMain cfgNoKey true clientOk persistAlways dbOneBlank).exitCode ≠ 0 :=
    h.1.mpr (Or.inl ⟨by decide, by decide⟩)
  exact ⟨h1, h.2 h1⟩

/-- C10: each processed record increments exactly one of the success or
error counter, so over any prefix of the work list — and at the end of the
work branch of a run — the two counters sum to the number of records
processed. -/
theorem claim10_counter_invariant :
    (∀ (client : Provider) (persist : Persistence) (st : LoopState) (p : Product),
      ((processRecord client persist st p).success_count = st.success_count + 1
          ∧ (processRecord client persist st p).error_count = st.error_count)
        ∨ ((processRecord client persist st p).success_count = st.success_count
          ∧ (processRecord client persist st p).error_count = st.error_count + 1))
    ∧ (∀ (cfg : Config) (client : Provider) (persist : Persistence)
        (pending : List Product) (k i : Nat) (db : List Product),
        (runLoop cfg client persist (initState db) (List.take k pending) i).success_count
          + (runLoop cfg client persist (initState db) (List.take k pending) i).error_count
          = (List.take k pending).length)
    ∧ (∀ (cfg : Config) (client : Provider) (persist : Persistence) (db : List Product)
        (e t : Nat),
        (workBranch cfg client persist db e t).success_count
          + (workBranch cfg client persist db e t).error_count
          = (fetchPending db).length) := by
  refine ⟨processRecord_success_or_error, ?_, ?_⟩
  · intro cfg client persist pending k i db
    rw [runLoop_counts]
    simp [initState]
  · intro cfg client persist db e t
    rw [workBranch_success, workBranch_error, runLoop_counts]
    simp [initState]

/-- C3: a provider failure surfaces as an absent embedding, never as an
uncaught exception; the driver converts an absent embedding — and a failed
persistence attempt — into exactly one error-counter increment and
continues, processing every record of the work list. -/
theorem claim3_failures_contained :
    (∀ (client : Provider) (t : String),
      (generate_embedding client t = none ↔ ∃ e, client t = ProviderOutcome.err e))
    ∧ (∀ (client : Provider) (persist : Persistence) (st : LoopState) (p : Product)
        (e : ProviderError),
        client (create_product_text p) = ProviderOutcome.err e →
          processRecord client persist st p
            = { st with providerCalls := st.providerCalls + 1,
                        error_count := st.error_count + 1 })
    ∧ (∀ (client : Provider) (persist : Persistence) (st : LoopState) (p : Product)
        (v : List ℚ),
        client (create_product_text p) = ProviderOutcome.ok v → v ≠ [] →
        persist p.sku (format_embedding_for_pgvector v) = false →
          processRecord client persist st p
            = { st with providerCalls := st.providerCalls + 1,
                        error_count := st.error_count + 1 })
    ∧ (∀ (cfg : Config) (client : Provider) (persist : Persistence) (st : LoopState)
        (pending : List Product) (i : Nat),
        (runLoop cfg client persist st pending i).success_count
          + (runLoop cfg client persist st pending i).error_count
          = st.success_count + st.error_count + pending.length) := by
  refine ⟨?_, ?_, ?_, ?_⟩
  · intro client t
    unfold generate_embedding
    cases hc : client t with
    | ok v => simp [hc]
    | err e => simp [hc]
  · intro client persist st p e hc
    exact processRecord_error_of_err client persist st p e hc
  · intro client persist st p v hc hv hp
    exact processRecord_error_of_persist_fail client persist st p v hc hv hp
  · intro cfg client persist st pending i
    exact runLoop_counts cfg client persist pending st i

/-- C3 witness: a timing-out provider on one concrete record yields one
error increment and an otherwise unchanged state. -/
theorem claim3_witness :
    processRecord clientDown persistAlways (initState dbOneBlank) (activeBlank "A")
      = { initState dbOneBlank with providerCalls := 1, error_count := 1 } :=
  claim3_failures_contained.2.1 clientDown persistAlways (initState dbOneBlank)
    (activeBlank "A") ProviderError.timeout rfl

/-- C2 counterexample: a store with zero eligible records in which an
inactive row holds an embedding makes `existing_count` (2) differ from
`total_count` (1), so the run does not report that there is nothing to
do, contradicting the claim as stated. -/
theorem claim2_nothing_report_cex :
    countEligible dbInactiveExtra = 0
    ∧ (runMain cfgOpenAI true clientOk persistAlways dbInactiveExtra).exitCode = 0
    ∧ (runMain cfgOpenAI true clientOk persistAlways dbInactiveExtra).nothingToDo = false := by
  refine ⟨by decide, by decide, by decide⟩

/-- C2 amended: with zero eligible records a run that passes the fatal
preconditions exits 0 and never calls the provider, but the
`"Nothing to do."` report is emitted exactly when the unscoped embedded
count equals the active count — not on every zero-eligible store. -/
theorem claim2_zero_eligible_amended (cfg : Config) (reach : Bool) (client : Provider)
    (persist : Persistence) (db : List Product)
    (helig : countEligible db = 0)
    (hexit : (runMain cfg reach client persist db).exitCode = 0) :
    (runMain cfg reach client persist db).providerCalls = 0
    ∧ ((runMain cfg reach client persist db).nothingToDo = true ↔
        countEmbedded db = countActive db) := by
  rw [runMain_eq] at hexit ⊢
  by_cases hk : (keyMissing cfg.openai_api_key
      && !containsSubstr cfg.openai_base_url "localhost") = true
  · rw [if_pos hk] at hexit
    exact absurd hexit (by simp [fatalReport])
  · rw [if_neg hk] at hexit ⊢
    cases reach with
    | false => simp [fatalReport] at hexit
    | true =>
      rw [if_neg (by simp : ¬ (true = false))]
      by_cases heq : countEmbedded db = countActive db
      · rw [if_pos heq]
        exact ⟨rfl, by simp [nothingToDoReport, heq]⟩
      · rw [if_neg heq]
        unfold countEligible at helig
        have hfe : db.filter eligible = [] := List.length_eq_zero.1 helig
        have hfp : fetchPending db = [] := by
          rw [fetchPending, hfe]
          rfl
        constructor
        · rw [workBranch_providerCalls, hfp]
          simp [runLoop, initState]
        · rw [workBranch_nothingToDo]
          simp [heq]

/-- C2 witness: the amended statement applied to the counterexample store. -/
theorem claim2_witness :
    (runMain cfgOpenAI true clientOk persistAlways dbInactiveExtra).providerCalls = 0
    ∧ ((runMain cfgOpenAI true clientOk persistAlways dbInactiveExtra).nothingToDo = true ↔
        countEmbedded dbInactiveExtra = countActive dbInactiveExtra) :=
  claim2_zero_eligible_amended cfgOpenAI true clientOk persistAlways dbInactiveExtra
    (by decide) (by decide)

/-- C9: the completion check succeeds exactly when the unscoped embedded
count equals the active-only total; the pre-run `existing_count` and the
post-run `final_count` are the unscoped count; and concretely the check
can pass while an eligible active record remains (an inactive row holding
an embedding makes up the difference), and can fail although nothing is
eligible. -/
theorem claim9_completion_scoping (cfg : Config) (reach : Bool) (client : Provider)
    (persist : Persistence) (db : List Product)
    (hexit : (runMain cfg reach client persist db).exitCode = 0) :
    ((runMain cfg reach client persist db).nothingToDo = true ↔
        countEmbedded db = countActive db)
    ∧ (runMain cfg reach client persist db).existing_count = countEmbedded db
    ∧ (runMain cfg reach client persist db).final_count
        = countEmbedded (runMain cfg reach client persist db).db
    ∧ (countEligible dbFalseComplete ≠ 0
        ∧ (runMain cfgOpenAI true clientOk persistAlways dbFalseComplete).nothingToDo = true)
    ∧ (countEligible dbInactiveExtra = 0
        ∧ (runMain cfgOpenAI true clientOk persistAlways dbInactiveExtra).nothingToDo = false) := by
  refine ⟨?_, ?_, ?_, by decide, by decide⟩ <;>
    · rw [runMain_eq] at hexit ⊢
      by_cases hk : (keyMissing cfg.openai_api_key
          && !containsSubstr cfg.openai_base_url "localhost") = true
      · rw [if_pos hk] at hexit
        exact absurd hexit (by simp [fatalReport])
      · rw [if_neg hk] at hexit ⊢
        cases reach with
        | false => simp [fatalReport] at hexit
        | true =>
          rw [if_neg (by simp : ¬ (true = false))]
          by_cases heq : countEmbedded db = countActive db
          · rw [if_pos heq]
            simp [nothingToDoReport, heq]
          · rw [if_neg heq]
            simp [workBranch_nothingToDo, workBranch_existing_count,
              workBranch_final_count, workBranch_db, heq]

/-- C9 witness: the scoping statement applied to a concrete passing run. -/
theorem claim9_witness :
    ((runMain cfgOpenAI true clientOk persistAlways dbOneBlank).nothingToDo = true ↔
        countEmbedded dbOneBlank = countActive dbOneBlank)
    ∧ (runMain cfgOpenAI true clientOk persistAlways dbOneBlank).existing_count
        = countEmbedded dbOneBlank
    ∧ (runMain cfgOpenAI true clientOk persistAlways dbOneBlank).final_count
        = countEmbedded (runMain cfgOpenAI true clientOk persistAlways dbOneBlank).db
    ∧ (countEligible dbFalseComplete ≠ 0
        ∧ (runMain cfgOpenAI true clientOk persistAlways dbFalseComplete).nothingToDo = true)
    ∧ (countEligible dbInactiveExtra = 0
        ∧ (runMain cfgOpenAI true clientOk persistAlways dbInactiveExtra).nothingToDo = false) :=
  claim9_completion_scoping cfgOpenAI true clientOk persistAlways dbOneBlank (by decide)

/-- C1: the work list is exactly the active, not-yet-embedded rows,
ordered by sku; and when a run whose provider always succeeds with a
non-empty vector and whose persistence always succeeds completes, a second
run on the resulting store performs zero provider calls — no
already-embedded record is ever re-embedded. -/
theorem claim1_worklist_and_idempotence (cfg : Config) (reach : Bool)
    (client1 client2 : Provider) (persist1 persist2 : Persistence) (db : List Product)
    (hclient : ∀ t, ∃ v, client1 t = ProviderOutcome.ok v ∧ v ≠ [])
    (hpersist : ∀ sk s, persist1 sk s = true)
    (hexit : (runMain cfg reach client1 persist1 db).exitCode = 0) :
    List.Perm (fetchPending db) (db.filter eligible)
    ∧ List.Pairwise (fun a b => skuLe a b = true) (fetchPending db)
    ∧ (runMain cfg reach client2 persist2
        (runMain cfg reach client1 persist1 db).db).providerCalls = 0 := by
  refine ⟨fetchPending_perm db, fetchPending_sorted db, ?_⟩
  rw [runMain_eq cfg reach client1 persist1 db] at hexit ⊢
  by_cases hk : (keyMissing cfg.openai_api_key
      && !containsSubstr cfg.openai_base_url "localhost") = true
  · rw [if_pos hk] at hexit
    exact absurd hexit (by simp [fatalReport])
  · rw [if_neg hk] at hexit ⊢
    cases reach with
    | false => simp [fatalReport] at hexit
    | true =>
      rw [if_neg (by simp : ¬ (true = false))] at hexit ⊢
      by_cases heq : countEmbedded db = countActive db
      · rw [if_pos heq]
        have hdb1 : (nothingToDoReport db (countEmbedded db) (countActive db)).db = db := rfl
        rw [hdb1, runMain_eq, if_neg hk, if_neg (by simp : ¬ (true = false)), if_pos heq]
        rfl
      · rw [if_neg heq, workBranch_db]
        set db1 := (runLoop cfg client1 persist1 (initState db) (fetchPending db) 0).db with hdb1
        have hcomplete : ∀ q ∈ db1, q.is_active = true → q.embedding.isSome = true := by
          apply runLoop_db_complete cfg client1 persist1 hclient hpersist
            (fetchPending db) (initState db) 0
          intro q hq hact
          cases hqe : q.embedding with
          | some v => exact Or.inl (by simp [hqe])
          | none =>
            right
            refine ⟨q, ?_, rfl⟩
            rw [(fetchPending_perm db).mem_iff]
            refine List.mem_filter.2 ⟨hq, ?_⟩
            unfold eligible
            rw [hact, hqe]
            rfl
        have hfe1 : db1.filter eligible = [] := filter_eligible_nil_of_complete db1 hcomplete
        have hfp1 : fetchPending db1 = [] := by
          rw [fetchPending, hfe1]
          rfl
        rw [runMain_eq, if_neg hk, if_neg (by simp : ¬ (true = false))]
        by_cases heq1 : countEmbedded db1 = countActive db1
        · rw [if_pos heq1]
          rfl
        · rw [if_neg heq1, workBranch_providerCalls, hfp1]
          simp [runLoop, initState]

/-- C1 witness: a concrete all-success first run leaves a store on which a
second run makes no provider call. -/
theorem claim1_witness :
    List.Perm (fetchPending dbOneBlank) (dbOneBlank.filter eligible)
    ∧ List.Pairwise (fun a b => skuLe a b = true) (fetchPending dbOneBlank)
    ∧ (runMain cfgOpenAI true clientOk persistAlways
        (runMain cfgOpenAI true clientOk persistAlways dbOneBlank).db).providerCalls = 0 :=
  claim1_worklist_and_idempotence cfgOpenAI true clientOk clientOk persistAlways persistAlways
    dbOneBlank (fun t => ⟨[mkRat 1 2], rfl, by decide⟩) (fun _ _ => rfl) (by decide)

set_option maxRecDepth 40000 in
/-- C5 counterexample: for 120 eligible records and batch size 50 the run
emits exactly 2 progress reports, not 3 — the final commit after the loop
prints the summary, not a progress report. -/
theorem claim5_three_reports_cex :
    (runMain cfgOpenAI true clientOk persistAlways db120).reports.length = 2
    ∧ ¬ ((runMain cfgOpenAI true clientOk persistAlways db120).reports.length = 3) := by
  refine ⟨by decide, by decide⟩

set_option maxRecDepth 40000 in
/-- C5 amended: for 120 eligible records and batch size 50 there are
exactly 2 progress reports (after records 50 and 100) and 3 commits — the
in-loop commits at the `(i+1) mod batchSize == 0` boundaries plus the one
final commit covering the remaining 20 — and the success and error counts
sum to 120; in general the in-loop commit points are exactly the
processed counts divisible by the batch size, and progress reports occur
exactly at the in-loop commits. -/
theorem claim5_batch_scenario_amended :
    (runMain cfgOpenAI true clientOk persistAlways db120).reports = [50, 100]
    ∧ (runMain cfgOpenAI true clientOk persistAlways db120).commitsAt = [50, 100]
    ∧ (runMain cfgOpenAI true clientOk persistAlways db120).commitsTotal = 3
    ∧ (runMain cfgOpenAI true clientOk persistAlways db120).success_count
        + (runMain cfgOpenAI true clientOk persistAlways db120).error_count = 120
    ∧ (∀ (cfg : Config) (client : Provider) (persist : Persistence) (db : List Product),
        (runLoop cfg client persist (initState db) (fetchPending db) 0).commitsAt
          = commitPoints 0 (fetchPending db).length cfg.batch_size)
    ∧ (∀ (cfg : Config) (client : Provider) (persist : Persistence) (db : List Product),
        (runLoop cfg client persist (initState db) (fetchPending db) 0).reports
          = (runLoop cfg client persist (initState db) (fetchPending db) 0).commitsAt) := by
  refine ⟨by decide, by decide, by decide, by decide, ?_, ?_⟩
  · intro cfg client persist db
    rw [runLoop_commitsAt]
    simp [initState]
  · intro cfg client persist db
    rw [runLoop_commitsAt, runLoop_reports]
    rfl

/-- C8 counterexample: two environments that differ in every configuration
variable — including a purported `RATE_LIMIT_DELAY` — give the same fixed
0.1 s post-batch sleep, and a concrete metered run sleeps 0.1 s per full
batch regardless of that variable: the delay is not a configuration
parameter. -/
theorem claim8_delay_not_configurable_cex :
    configFromEnv envA ≠ configFromEnv envB
    ∧ envA "RATE_LIMIT_DELAY" ≠ envB "RATE_LIMIT_DELAY"
    ∧ sleepDurationPerBatch (configFromEnv envA) = mkRat 1 10
    ∧ sleepDurationPerBatch (configFromEnv envB) = mkRat 1 10
    ∧ (runMain (configFromEnv envA) true clientOk persistAlways dbFour).sleptFor
        = [mkRat 1 10, mkRat 1 10] := by
  refine ⟨by decide, by decide, rfl, rfl, by decide⟩

/-- C8 amended: the post-batch delay is the fixed constant 0.1 s for every
configuration, and the loop sleeps it after each full batch exactly when
the base URL contains `"openai.com"` (the script's test for the metered
public endpoint); otherwise it never sleeps. -/
theorem claim8_sleep_behavior_amended :
    (∀ cfg : Config, sleepDurationPerBatch cfg = mkRat 1 10)
    ∧ (∀ (cfg : Config) (client : Provider) (persist : Persistence) (db : List Product),
        (runLoop cfg client persist (initState db) (fetchPending db) 0).sleptFor
          = if containsSubstr cfg.openai_base_url "openai.com" = true
              then (commitPoints 0 (fetchPending db).length cfg.batch_size).map
                (fun _ => sleepDurationPerBatch cfg)
              else []) := by
  refine ⟨fun _ => rfl, ?_⟩
  intro cfg client persist db
  rw [runLoop_sleptFor]
  simp [initState]

/-- C6: `create_product_text` equals, for every record, the spec's
composition — name, then description, `"Category: <c>"`,
`"Subcategory: <s>"` (each when the field is present, i.e. non-null and
non-empty under Python truthiness), then the fixed-mapping expansion of
the division code with fallback `"Division: <code>"`, joined with
`". "` — and, being a pure function of the record, is deterministic; two
concrete records exercise the full composition and the unknown-code
fallback. -/
theorem claim6_compose_structure :
    (∀ p : Product, create_product_text p = composeSpec p)
    ∧ create_product_text exFullProduct
        = "Bearing X. High temperature bearing. Category: Bearings. Subcategory: Spindle. Industrial Division - CNC parts, bearings, hydraulics"
    ∧ create_product_text exUnknownDivision = "part. Division: XYZ" := by
  refine ⟨?_, by decide, by decide⟩
  intro p
  unfold create_product_text composeSpec specSegments
  by_cases h1 : strTruthy p.description = true <;>
    by_cases h2 : strTruthy p.category = true <;>
      by_cases h3 : strTruthy p.subcategory = true <;>
        by_cases h4 : strTruthy p.division_id = true <;>
          simp [h1, h2, h3, h4, joinSep]

theorem noSpaceStr_append (s t : String) :
    noSpaceStr (s ++ t) = (noSpaceStr s && noSpaceStr t) := by
  simp [noSpaceStr, String.data_append, List.all_append]

theorem noSpaceStr_mk (cs : List Char) :
    noSpaceStr (String.mk cs) = cs.all (fun c => !(c == spaceChar)) := rfl

theorem natDigitChar_not_space (n : Nat) : (!(natDigitChar n == spaceChar)) = true := by
  unfold natDigitChar
  split <;> decide

theorem digitsAux_not_space :
    ∀ (fuel n : Nat) (c : Char), c ∈ digitsAux fuel n → (!(c == spaceChar)) = true
  | 0, _, c, hc => absurd hc (List.not_mem_nil c)
  | fuel + 1, n, c, hc => by
    unfold digitsAux at hc
    by_cases h : n < 10
    · rw [if_pos h] at hc
      rcases List.mem_singleton.1 hc with rfl
      exact natDigitChar_not_space n
    · rw [if_neg h] at hc
      rcases List.mem_append.1 hc with h1 | h1
      · exact digitsAux_not_space fuel (n / 10) c h1
      · rcases List.mem_singleton.1 h1 with rfl
        exact natDigitChar_not_space (n % 10)

theorem noSpaceStr_of_chars (cs : List Char) (h : ∀ c ∈ cs, (!(c == spaceChar)) = true) :
    noSpaceStr (String.mk cs) = true := by
  rw [noSpaceStr_mk]
  exact List.all_eq_true.2 h

theorem renderScaled_not_space (m : Int) (k : Nat) :
    noSpaceStr (renderScaled m k) = true := by
  unfold renderScaled
  have hdig : ∀ c ∈ natToDigits m.natAbs, (!(c == spaceChar)) = true :=
    fun c hc => digitsAux_not_space _ _ c hc
  have hpad : ∀ c ∈ (if (natToDigits m.natAbs).length ≤ k
        then List.replicate (k + 1 - (natToDigits m.natAbs).length) '0' ++ natToDigits m.natAbs
        else natToDigits m.natAbs),
      (!(c == spaceChar)) = true := by
    intro c hc
    by_cases h : (natToDigits m.natAbs).length ≤ k
    · rw [if_pos h] at hc
      rcases List.mem_append.1 hc with h1 | h1
      · rw [List.eq_of_mem_replicate h1]
        decide
      · exact hdig c h1
    · rw [if_neg h] at hc
      exact hdig c hc
  have hsign : noSpaceStr (if m < 0 then "-" else "") = true := by
    split <;> decide
  by_cases hk0 : k = 0
  · rw [if_pos hk0, noSpaceStr_append, noSpaceStr_append, hsign,
      noSpaceStr_of_chars _ hpad]
    decide
  · rw [if_neg hk0, noSpaceStr_append, noSpaceStr_append, noSpaceStr_append, hsign,
      noSpaceStr_of_chars _ (fun c hc => hpad c (List.take_subset _ _ hc)),
      noSpaceStr_of_chars _ (fun c hc => hpad c (List.drop_subset _ _ hc))]
    decide

theorem ratToDecimal_not_space (q : ℚ) : noSpaceStr (ratToDecimal q) = true := by
  unfold ratToDecimal
  cases hfind : (List.range 18).find? (fun k => decide (q.den ∣ 10 ^ k)) with
  | none => exact (by decide : noSpaceStr "?" = true)
  | some k => exact renderScaled_not_space ((q.num * (10 : Int) ^ k) / (q.den : Int)) k

theorem joinSep_not_space (sep : String) (hsep : noSpaceStr sep = true) :
    ∀ l : List String, (∀ s ∈ l, noSpaceStr s = true) → noSpaceStr (joinSep sep l) = true
  | [], _ => by
    show noSpaceStr "" = true
    decide
  | [s], h => h s (List.mem_singleton.2 rfl)
  | s :: s' :: rest, h => by
    show noSpaceStr (s ++ sep ++ joinSep sep (s' :: rest)) = true
    rw [noSpaceStr_append, noSpaceStr_append, h s (by simp), hsep,
      joinSep_not_space sep hsep (s' :: rest) (fun x hx => h x (by simp [List.mem_cons.1 hx]))]
    rfl

/-- C7: `format_embedding_for_pgvector` always yields a whitespace-free
string; on the vector `[0.1, -0.2, 0.3]` it yields exactly
`"[0.1,-0.2,0.3]"`, and parsing that literal back recovers the three
values exactly (the components are modelled as exact rationals, so the
round trip is exact and in particular within any floating-point
tolerance). -/
theorem claim7_vector_literal :
    (∀ v : List ℚ, noSpaceStr (format_embedding_for_pgvector v) = true)
    ∧ format_embedding_for_pgvector [mkRat 1 10, mkRat (-2) 10, mkRat 3 10]
        = "[0.1,-0.2,0.3]"
    ∧ parseVectorLiteral "[0.1,-0.2,0.3]"
        = some [mkRat 1 10, mkRat (-2) 10, mkRat 3 10] := by
  refine ⟨?_, by decide, by decide⟩
  intro v
  unfold format_embedding_for_pgvector
  have hj : noSpaceStr (joinSep "," (v.map ratToDecimal)) = true := by
    refine joinSep_not_space "," (by decide) _ ?_
    intro s hs
    rcases List.mem_map.1 hs with ⟨q, _, rfl⟩
    exact ratToDecimal_not_space q
  rw [noSpaceStr_append, noSpaceStr_append, hj]
  decide

end Titan
